import Mathlib

/-!
Verification of the River time-addressed media editing core.

Shallow embedding of `src/models/timestamp.ts` (TimestampUtils),
the Flow segment ledger (`FlowModel`), and the timeline engine
(`TimelineManager` in `src/timeline/timeline.ts`).

Modelling conventions:
* JS numbers used as integers are modelled by `Int`; `Math.floor(a / b)`
  is `Int.fdiv`, and the JS remainder operator `%` (which truncates
  toward zero, keeping the dividend sign) is `Int.tmod`.
* `uuidv4()` is modelled by a fresh-id counter threaded through the
  state (`nextId`); ids are `Nat`.  `new Date()` wall-clock stamps are
  opaque `Nat` clock values passed in by the caller where a claim can
  observe them, and omitted where no claim observes them.
* JS strings are modelled as `List Char`; `String.prototype.split` on a
  one-character separator is `splitOnChar`, and `Number(...)` is
  modelled on the decimal-integer fragment relevant here by `jsNumber`
  (empty string gives 0, optional sign followed by digits gives the
  integer, anything else gives `none`, i.e. NaN).
* `Array.prototype.splice` (including its negative-start clamping) is
  `jsSplice`; `Array.prototype.sort`, which is a stable sort, is
  `List.insertionSort` (stable) with the source comparator.
* A thrown exception is an `Except.error`; every method on a mutable
  object is translated to a function returning the object's post-state
  together with the result, building the post-state statement by
  statement in source order, so that the state returned on an error
  path is exactly the state at the moment of the `throw`.
-/

/-- Errors thrown by the core (the TS code throws `Error` with a
message; only the validation site matters to the claims). -/
inductive RiverError where
  | overlap
  | invalidSplitPoint
  | invalidFormat
  deriving DecidableEq, Repr

/-- `{seconds, nanoseconds}` from `src/models/types.ts`; JS numbers
used as (possibly negative) integers. -/
structure Timestamp where
  seconds : Int
  nanoseconds : Int
  deriving DecidableEq, Repr

/-- Half-open `{start, end}` range of timestamps. -/
structure TimeRange where
  start : Timestamp
  stop : Timestamp
  deriving DecidableEq, Repr

namespace TimestampUtils

def NANOSECONDS_PER_SECOND : Int := 1000000000

/-- `TimestampUtils.create`: `extraSeconds = Math.floor(ns / 1e9)`;
result `{seconds: s + extraSeconds, nanoseconds: ns % 1e9}` with the JS
truncating remainder. -/
def create (seconds : Int) (nanoseconds : Int) : Timestamp :=
  let extraSeconds := Int.fdiv nanoseconds NANOSECONDS_PER_SECOND
  { seconds := seconds + extraSeconds
    nanoseconds := Int.tmod nanoseconds NANOSECONDS_PER_SECOND }

/-- `TimestampUtils.add`. -/
def add (a b : Timestamp) : Timestamp :=
  create (a.seconds + b.seconds) (a.nanoseconds + b.nanoseconds)

/-- `TimestampUtils.subtract`: explicit borrow across the nanosecond
boundary. -/
def subtract (a b : Timestamp) : Timestamp :=
  let seconds := a.seconds - b.seconds
  let nanoseconds := a.nanoseconds - b.nanoseconds
  if nanoseconds < 0 then
    { seconds := seconds - 1, nanoseconds := nanoseconds + NANOSECONDS_PER_SECOND }
  else
    { seconds := seconds, nanoseconds := nanoseconds }

/-- `TimestampUtils.compare`: lexicographic on (seconds, nanoseconds),
returning -1, 0 or 1. -/
def compare (a b : Timestamp) : Int :=
  if a.seconds < b.seconds then -1
  else if a.seconds > b.seconds then 1
  else if a.nanoseconds < b.nanoseconds then -1
  else if a.nanoseconds > b.nanoseconds then 1
  else 0

/-- `TimestampUtils.isWithinRange`: half-open, start inclusive, end
exclusive. -/
def isWithinRange (ts : Timestamp) (range : TimeRange) : Bool :=
  decide (0 ≤ compare ts range.start) && decide (compare ts range.stop < 0)

/-- `TimestampUtils.duration`. -/
def duration (range : TimeRange) : Timestamp :=
  subtract range.stop range.start

end TimestampUtils

/-- JS `String.prototype.split` with a single-character separator:
always returns at least one (possibly empty) component. -/
def splitOnChar (sep : Char) : List Char → List (List Char)
  | [] => [[]]
  | c :: cs =>
      match splitOnChar sep cs with
      | [] => if c = sep then [[], []] else [[c]]
      | p :: ps => if c = sep then [] :: p :: ps else (c :: p) :: ps

/-- JS `Number(...)` restricted to the decimal-integer fragment the
timestamp strings use: the empty string is 0, an optional sign followed
by one or more digits is that integer, and anything else is NaN
(`none`). -/
def jsNumber (s : List Char) : Option Int :=
  let digitsVal : List Char → Option Int := fun ds =>
    if ds.isEmpty then none
    else if ds.all (·.isDigit) then
      some (ds.foldl (fun acc c => acc * 10 + (c.toNat - '0'.toNat : Int)) 0)
    else none
  match s with
  | [] => some 0
  | '-' :: rest => (digitsVal rest).map (fun n => -n)
  | '+' :: rest => digitsVal rest
  | _ => digitsVal s

namespace TimestampUtils

/-- `TimestampUtils.fromString`: `str.split(':').map(Number)`, then
destructure the first two components as `[seconds, nanoseconds]`
(a missing component is `undefined`, hence NaN); fail if either is NaN,
else `create(seconds, nanoseconds)`.  Components beyond the second are
dropped by the destructuring. -/
def fromString (s : List Char) : Except RiverError Timestamp :=
  let parts := (splitOnChar ':' s).map jsNumber
  match parts[0]?, parts[1]? with
  | some (some seconds), some (some nanoseconds) => .ok (create seconds nanoseconds)
  | _, _ => .error .invalidFormat

end TimestampUtils

/-! Ordering facts about `compare`, shared by several proofs. -/

namespace TimestampUtils

theorem compare_le_zero_iff {a b : Timestamp} :
    compare a b ≤ 0 ↔
      (a.seconds < b.seconds ∨ (a.seconds = b.seconds ∧ a.nanoseconds ≤ b.nanoseconds)) := by
  unfold compare
  split <;> rename_i h1
  · simp; omega
  · split <;> rename_i h2
    · simp; omega
    · split <;> rename_i h3
      · simp; omega
      · split <;> rename_i h4
        · simp; omega
        · simp; omega

theorem compare_eq_neg_one_iff {a b : Timestamp} :
    compare a b = -1 ↔
      (a.seconds < b.seconds ∨ (a.seconds = b.seconds ∧ a.nanoseconds < b.nanoseconds)) := by
  unfold compare
  split <;> rename_i h1
  · simp; omega
  · split <;> rename_i h2
    · simp; omega
    · split <;> rename_i h3
      · simp; omega
      · split <;> rename_i h4
        · simp; omega
        · simp; omega

theorem compare_swap (a b : Timestamp) : compare a b = -compare b a := by
  unfold compare
  split_ifs <;> omega

end TimestampUtils

/-! ## Flow segment ledger (`FlowModel`) -/

/-- `FlowSegment` from `src/models/types.ts`: ids and `Date` stamps are
opaque `Nat`s, `objectIds` are opaque content references. -/
structure FlowSegment where
  id : Nat
  flowId : Nat
  timerange : TimeRange
  objectIds : List Nat
  tsOffset : Option Timestamp
  sampleDuration : Option Timestamp
  mediaTimerange : Option TimeRange
  created : Nat
  updated : Nat
  deriving DecidableEq, Repr

/-- The argument of `addSegment`: a `FlowSegment` with `flowId`,
`created` and `updated` omitted (they are stamped by `addSegment`). -/
structure SegSpec where
  id : Nat
  timerange : TimeRange
  objectIds : List Nat
  tsOffset : Option Timestamp
  sampleDuration : Option Timestamp
  mediaTimerange : Option TimeRange
  deriving DecidableEq, Repr

/-- `FlowModel`: per-Flow sorted, non-overlapping segment collection. -/
structure RiverFlow where
  id : Nat
  sourceId : Option Nat
  label : Option String
  description : Option String
  format : Nat
  tags : List (String × String)
  created : Nat
  updated : Nat
  generation : Nat
  segments : List FlowSegment
  deriving DecidableEq, Repr

namespace FlowModel

open TimestampUtils

/-- The overlap test used by `validateSegmentTimeRange`:
`compare(range.start, seg.end) < 0 && compare(range.end, seg.start) > 0`. -/
def rangesOverlap (a b : TimeRange) : Bool :=
  decide (compare a.start b.stop < 0) && decide (compare a.stop b.start > 0)

/-- `FlowModel.validateSegmentTimeRange` as a check: `true` means the
range overlaps some existing segment (the TS method then throws). -/
def validateFails (f : RiverFlow) (range : TimeRange) : Bool :=
  f.segments.any (fun segment => rangesOverlap range segment.timerange)

/-- The comparator passed to `this.segments.sort`: ascending by
`timerange.start` under `TimestampUtils.compare`. -/
def segLE (a b : FlowSegment) : Prop :=
  compare a.timerange.start b.timerange.start ≤ 0

instance : DecidableRel segLE := fun a b =>
  inferInstanceAs (Decidable (compare a.timerange.start b.timerange.start ≤ 0))

instance : IsTotal FlowSegment segLE where
  total a b := by
    unfold segLE
    rw [compare_le_zero_iff, compare_le_zero_iff]
    omega

instance : IsTrans FlowSegment segLE where
  trans a b c hab hbc := by
    unfold segLE at *
    rw [compare_le_zero_iff] at *
    omega

/-- `FlowModel.addSegment`: build the new segment, throw `OverlapError`
if its timerange overlaps an existing segment, else push it, re-sort by
start (stable sort, as `Array.prototype.sort`), stamp `updated` and
increment `generation`. -/
def addSegment (f : RiverFlow) (spec : SegSpec) (now : Nat) :
    RiverFlow × Except RiverError FlowSegment :=
  let newSegment : FlowSegment :=
    { id := spec.id, flowId := f.id, timerange := spec.timerange
      objectIds := spec.objectIds, tsOffset := spec.tsOffset
      sampleDuration := spec.sampleDuration, mediaTimerange := spec.mediaTimerange
      created := now, updated := now }
  if validateFails f newSegment.timerange then
    (f, .error .overlap)
  else
    ({ f with
        segments := List.insertionSort segLE (f.segments ++ [newSegment])
        updated := now
        generation := f.generation + 1 },
      .ok newSegment)

/-- `FlowModel.getSegmentsInRange`: all segments overlapping the
requested range (partial overlaps included), in stored order. -/
def getSegmentsInRange (f : RiverFlow) (range : TimeRange) : List FlowSegment :=
  f.segments.filter (fun segment =>
    decide (compare segment.timerange.start range.stop < 0) &&
      decide (compare segment.timerange.stop range.start > 0))

/-- `FlowModel.clone`: a new flow with a fresh (or given) id, reset
`generation`, and per-segment fresh ids; the receiver is returned
unchanged as the first component.  `fresh` seeds the modelled
`uuidv4()` supply. -/
def clone (f : RiverFlow) (newId : Option Nat) (fresh : Nat) (now : Nat) :
    RiverFlow × RiverFlow :=
  let cloneId := newId.getD fresh
  (f,
    { f with
        id := cloneId
        created := now
        updated := now
        generation := 0
        segments := f.segments.mapIdx (fun i segment =>
          { segment with
              id := fresh + 1 + i
              flowId := cloneId
              created := now
              updated := now }) })

/-- The body of the `for` loop of `FlowModel.extractRange`: clip each
relevant segment to its intersection with `range`, shift a present
`mediaTimerange` by the trimmed offset, and `addSegment` it into the
new flow; a thrown `OverlapError` aborts the loop. -/
def extractLoop (now : Nat) (range : TimeRange) :
    RiverFlow → Nat → List FlowSegment → Except RiverError RiverFlow
  | nf, _, [] => .ok nf
  | nf, fid, segment :: rest =>
      let startT :=
        if compare segment.timerange.start range.start > 0 then
          segment.timerange.start
        else range.start
      let endT :=
        if compare segment.timerange.stop range.stop < 0 then
          segment.timerange.stop
        else range.stop
      let mediaTimerange :=
        match segment.mediaTimerange with
        | none => none
        | some mtr =>
            if compare startT segment.timerange.start ≠ 0 ∨
                compare endT segment.timerange.stop ≠ 0 then
              let startOffset := subtract startT segment.timerange.start
              let dur := subtract endT startT
              let newMediaStart := add mtr.start startOffset
              some { start := newMediaStart, stop := add newMediaStart dur }
            else some mtr
      match addSegment nf
          { id := fid, timerange := { start := startT, stop := endT }
            objectIds := segment.objectIds, tsOffset := segment.tsOffset
            sampleDuration := segment.sampleDuration
            mediaTimerange := mediaTimerange } now with
      | (_, .error e) => .error e
      | (nf', .ok _) => extractLoop now range nf' (fid + 1) rest

/-- `FlowModel.extractRange`: build an empty flow with a fresh (or
given) id and `generation` 0, then add the clipped intersection of
every overlapping segment; the receiver is returned unchanged as the
first component. -/
def extractRange (f : RiverFlow) (range : TimeRange) (newId : Option Nat)
    (fresh : Nat) (now : Nat) : RiverFlow × Except RiverError RiverFlow :=
  let newFlow : RiverFlow :=
    { f with
        id := newId.getD fresh
        created := now
        updated := now
        generation := 0
        segments := [] }
  let relevantSegments := getSegmentsInRange f range
  (f, extractLoop now range newFlow (fresh + 1) relevantSegments)

end FlowModel

/-! ## Timeline engine (`TimelineManager`) -/

/-- A clip transition; its fields are never read by the engine logic,
so it is modelled as an opaque reference. -/
structure Transitions where
  tIn : Option Nat
  tOut : Option Nat
  deriving DecidableEq, Repr

/-- `Clip` from `src/timeline/types.ts`. -/
structure Clip where
  id : Nat
  sourceId : Nat
  flowId : Nat
  trackId : Nat
  timelineRange : TimeRange
  sourceRange : TimeRange
  speed : Int
  transitions : Option Transitions
  effects : List Nat
  deriving DecidableEq, Repr

/-- The argument of `addClip`: a `Clip` with `id` and `trackId`
omitted. -/
structure ClipSpec where
  sourceId : Nat
  flowId : Nat
  timelineRange : TimeRange
  sourceRange : TimeRange
  speed : Int
  transitions : Option Transitions
  effects : List Nat
  deriving DecidableEq, Repr

/-- `Track`: an ordered lane of clips. -/
structure Track where
  id : Nat
  name : String
  ttype : Nat
  index : Nat
  muted : Bool
  locked : Bool
  visible : Bool
  clips : List Clip
  deriving DecidableEq, Repr

/-- The argument of `addTrack`: a `Track` with `id` and `clips`
omitted. -/
structure TrackSpec where
  name : String
  ttype : Nat
  index : Nat
  muted : Bool
  locked : Bool
  visible : Bool
  deriving DecidableEq, Repr

/-- `Marker`. -/
structure Marker where
  id : Nat
  timestamp : Timestamp
  mtype : Nat
  label : String
  deriving DecidableEq, Repr

/-- `EditCommandType` string tags. -/
inductive CmdType where
  | addTrack | removeTrack | reorderTracks
  | addClip | removeClip | moveClip | trimClip | splitClip
  | addEffect | removeEffect | addMarker | removeMarker
  deriving DecidableEq, Repr

/-- The heterogeneous `data` / `undoData` payloads stored on an
`EditCommand`, one variant per payload shape appearing in the source. -/
inductive CmdData where
  | addTrackData (track : Track)
  | addTrackUndo (trackId : Nat)
  | addClipData (clip : Clip)
  | addClipUndo (clipId : Nat)
  | moveClipData (clipId newTrackId : Nat) (newTimelineStart : Timestamp)
  | moveClipUndo (clipId oldTrackId : Nat) (oldTimelineRange : TimeRange)
  | trimClipData (clipId : Nat) (newSourceRange newTimelineRange : Option TimeRange)
  | trimClipUndo (clipId : Nat) (oldSourceRange oldTimelineRange : TimeRange)
  | splitClipData (originalClipId : Nat) (splitPoint : Timestamp)
      (firstClipId secondClipId : Nat)
  | splitClipUndo (originalClip : Clip) (trackId : Nat) (index : Int)
  deriving DecidableEq, Repr

/-- `EditCommand` (the `timestamp: new Date()` stamp is never read by
any logic or claim and is omitted). -/
structure EditCommand where
  id : Nat
  ctype : CmdType
  data : CmdData
  undoData : CmdData
  deriving DecidableEq, Repr

/-- The `TimelineManager` instance state: the owned timeline (tracks,
markers, derived duration), the bounded history with its cursor, and
the fresh-id counter modelling `uuidv4()`. -/
structure Manager where
  tracks : List Track
  markers : List Marker
  duration : Timestamp
  history : List EditCommand
  historyIndex : Int
  maxHistorySize : Nat
  nextId : Nat
  deriving DecidableEq, Repr

/-- JS `Array.prototype.splice(start, deleteCount, ...items)`: a
negative `start` counts from the end and clamps at 0; a positive one
clamps at the length. -/
def jsSplice {α : Type} (l : List α) (start : Int) (deleteCount : Nat)
    (items : List α) : List α :=
  let s := if start < 0 then (l.length + start).toNat else min start.toNat l.length
  l.take s ++ items ++ l.drop (s + deleteCount)

namespace TimelineManager

open TimestampUtils

/-- A `TimelineManager` over an empty timeline, as the suite's
`beforeEach` constructs one: no tracks or markers, zero duration, empty
history with the cursor at -1 and the default `maxHistorySize` 100. -/
def init : Manager :=
  { tracks := [], markers := [], duration := create 0 0
    history := [], historyIndex := -1, maxHistorySize := 100, nextId := 0 }

/-- `uuidv4()` modelled as a draw from the fresh-id counter. -/
def freshId (m : Manager) : Nat × Manager :=
  (m.nextId, { m with nextId := m.nextId + 1 })

/-- `TimelineManager.getTrack`: first track with the given id. -/
def getTrack (m : Manager) (trackId : Nat) : Option Track :=
  m.tracks.find? (fun t => t.id = trackId)

/-- `TimelineManager.getClip`: first clip with the given id across all
tracks in order. -/
def getClip (m : Manager) (clipId : Nat) : Option Clip :=
  m.tracks.findSome? (fun track => track.clips.find? (fun c => c.id = clipId))

/-- `TimelineManager.hasOverlap`: the half-open overlap test against
every clip of the track, skipping `excludeClipId`. -/
def hasOverlap (track : Track) (timerange : TimeRange)
    (excludeClipId : Option Nat) : Bool :=
  track.clips.any (fun clip =>
    if excludeClipId = some clip.id then false
    else
      decide (compare timerange.start clip.timelineRange.stop < 0) &&
        decide (compare timerange.stop clip.timelineRange.start > 0))

/-- `TimelineManager.findClipInsertIndex`: `Array.prototype.findIndex`
of the first clip starting strictly after `timestamp`; -1 when there is
none. -/
def findClipInsertIndex (track : Track) (timestamp : Timestamp) : Int :=
  match track.clips.findIdx? (fun clip =>
      compare clip.timelineRange.start timestamp > 0) with
  | some i => (i : Int)
  | none => -1

/-- Apply `f` to the first track with the given id (the object
`this.getTrack(id)` aliases). -/
def modifyTrack (tracks : List Track) (trackId : Nat) (f : Track → Track) :
    List Track :=
  match tracks with
  | [] => []
  | t :: ts => if t.id = trackId then f t :: ts else t :: modifyTrack ts trackId f

/-- The comparator used to re-sort a track's clips: ascending by
`timelineRange.start`. -/
def clipLE (a b : Clip) : Prop :=
  compare a.timelineRange.start b.timelineRange.start ≤ 0

instance : DecidableRel clipLE := fun a b =>
  inferInstanceAs (Decidable (compare a.timelineRange.start b.timelineRange.start ≤ 0))

/-- `TimelineManager.updateTimeline`: recompute the derived duration as
the max clip end over all tracks, starting from zero. -/
def updateTimeline (m : Manager) : Manager :=
  let maxEnd := m.tracks.foldl (fun acc track =>
    track.clips.foldl (fun acc clip =>
      if compare clip.timelineRange.stop acc > 0 then clip.timelineRange.stop
      else acc) acc) (create 0 0)
  { m with duration := maxEnd }

/-- `TimelineManager.executeCommand`: drop the redo-able suffix past
the cursor (`slice(0, historyIndex+1)`; the cursor never sits below -1,
so the bound is non-negative), push the command, advance the cursor,
then cap the list at `maxHistorySize` by evicting from the front
(`slice(-maxHistorySize)`) and clamping the cursor to the new end. -/
def executeCommand (m : Manager) (command : EditCommand) : Manager :=
  let h2 := m.history.take (m.historyIndex + 1).toNat ++ [command]
  let idx2 := m.historyIndex + 1
  if h2.length > m.maxHistorySize then
    let h3 := h2.drop (h2.length - m.maxHistorySize)
    { m with history := h3, historyIndex := (h3.length : Int) - 1 }
  else
    { m with history := h2, historyIndex := idx2 }

/-- `TimelineManager.canUndo`. -/
def canUndo (m : Manager) : Bool := decide (0 ≤ m.historyIndex)

/-- `TimelineManager.canRedo`. -/
def canRedo (m : Manager) : Bool :=
  decide (m.historyIndex < (m.history.length : Int) - 1)

/-- `TimelineManager.undo`: guarded by `canUndo`; `applyUndo` is a stub
that only logs (`logger.debug`) and touches no timeline state, so the
step just decrements the cursor and recomputes the derived duration. -/
def undo (m : Manager) : Manager × Bool :=
  if canUndo m then
    (updateTimeline { m with historyIndex := m.historyIndex - 1 }, true)
  else (m, false)

/-- `TimelineManager.redo`: guarded by `canRedo`; `applyRedo` is the
same do-nothing stub, so the step just increments the cursor and
recomputes the derived duration. -/
def redo (m : Manager) : Manager × Bool :=
  if canRedo m then
    (updateTimeline { m with historyIndex := m.historyIndex + 1 }, true)
  else (m, false)

end TimelineManager

namespace TimelineManager

open TimestampUtils

/-- `TimelineManager.addTrack`: build the track with a fresh id and no
clips, splice it in at `spec.index`, renumber the indices of the tracks
after it, record the command, recompute the derived duration. -/
def addTrack (m : Manager) (spec : TrackSpec) : Manager × Track :=
  let (tid, m1) := freshId m
  let newTrack : Track :=
    { id := tid, name := spec.name, ttype := spec.ttype, index := spec.index
      muted := spec.muted, locked := spec.locked, visible := spec.visible
      clips := [] }
  let tracks1 := jsSplice m1.tracks (spec.index : Int) 0 [newTrack]
  let tracks2 := tracks1.mapIdx (fun i t =>
    if spec.index < i then { t with index := i } else t)
  let (cmdId, m2) := freshId { m1 with tracks := tracks2 }
  let m3 := executeCommand m2
    { id := cmdId, ctype := .addTrack
      data := .addTrackData newTrack, undoData := .addTrackUndo tid }
  (updateTimeline m3, newTrack)

/-- `TimelineManager.addClip`: `null` for an unknown track; throw
`OverlapError` when the new clip's timeline range overlaps any clip on
the track; else splice it in at `findClipInsertIndex` (note the raw -1
is passed to `splice` when no later clip exists), record the command,
recompute the derived duration. -/
def addClip (m : Manager) (trackId : Nat) (spec : ClipSpec) :
    Manager × Except RiverError (Option Clip) :=
  match getTrack m trackId with
  | none => (m, .ok none)
  | some track =>
      if hasOverlap track spec.timelineRange none then
        (m, .error .overlap)
      else
        let (cid, m1) := freshId m
        let newClip : Clip :=
          { id := cid, sourceId := spec.sourceId, flowId := spec.flowId
            trackId := trackId, timelineRange := spec.timelineRange
            sourceRange := spec.sourceRange, speed := spec.speed
            transitions := spec.transitions, effects := spec.effects }
        let insertIndex := findClipInsertIndex track newClip.timelineRange.start
        let tracks1 := modifyTrack m1.tracks trackId (fun t =>
          { t with clips := jsSplice t.clips insertIndex 0 [newClip] })
        let (cmdId, m2) := freshId { m1 with tracks := tracks1 }
        let m3 := executeCommand m2
          { id := cmdId, ctype := .addClip
            data := .addClipData newClip, undoData := .addClipUndo cid }
        (updateTimeline m3, .ok (some newClip))

/-- `TimelineManager.moveClip`: `false` for an unknown clip or track;
the new timeline range keeps the old duration; throw `OverlapError`
against the destination track with the moving clip excluded; else
remove it from the source track, update its track id and range, splice
it into the destination at `findClipInsertIndex` (computed on the
destination as the source left it — the same object when moving within
one track), record, recompute the duration. -/
def moveClip (m : Manager) (clipId : Nat) (newTrackId : Nat)
    (newTimelineStart : Timestamp) : Manager × Except RiverError Bool :=
  match getClip m clipId with
  | none => (m, .ok false)
  | some clip =>
      match getTrack m clip.trackId, getTrack m newTrackId with
      | some _, some targetTrack =>
          let dur := duration clip.timelineRange
          let newTimelineRange : TimeRange :=
            { start := newTimelineStart, stop := add newTimelineStart dur }
          if hasOverlap targetTrack newTimelineRange (some clipId) then
            (m, .error .overlap)
          else
            let oldTrackId := clip.trackId
            let oldTimelineRange := clip.timelineRange
            let tracks1 := modifyTrack m.tracks clip.trackId (fun t =>
              { t with clips := t.clips.filter (fun c => c.id ≠ clipId) })
            let newClip := { clip with trackId := newTrackId
                                       timelineRange := newTimelineRange }
            let tracks2 := modifyTrack tracks1 newTrackId (fun t =>
              { t with clips :=
                  jsSplice t.clips (findClipInsertIndex t newTimelineStart) 0 [newClip] })
            let (cmdId, m1) := freshId { m with tracks := tracks2 }
            let m2 := executeCommand m1
              { id := cmdId, ctype := .moveClip
                data := .moveClipData clipId newTrackId newTimelineStart
                undoData := .moveClipUndo clipId oldTrackId oldTimelineRange }
            (updateTimeline m2, .ok true)
      | _, _ => (m, .ok false)

/-- `TimelineManager.trimClip`: `false` for an unknown clip or track; a
requested timeline range that overlaps another clip on the track throws
`OverlapError` before anything is touched; else overwrite whichever
ranges were given on the clip object (wherever it lives) and re-sort
the track's clips when the timeline range changed; record, recompute
the duration. -/
def trimClip (m : Manager) (clipId : Nat) (newSourceRange : Option TimeRange)
    (newTimelineRange : Option TimeRange) : Manager × Except RiverError Bool :=
  match getClip m clipId with
  | none => (m, .ok false)
  | some clip =>
      match getTrack m clip.trackId with
      | none => (m, .ok false)
      | some track =>
          let oldSourceRange := clip.sourceRange
          let oldTimelineRange := clip.timelineRange
          if (newTimelineRange.map (fun r => hasOverlap track r (some clipId))).getD false then
            (m, .error .overlap)
          else
            let clip1 := { clip with sourceRange := newSourceRange.getD clip.sourceRange }
            let clip2 :=
              match newTimelineRange with
              | some r => { clip1 with timelineRange := r }
              | none => clip1
            let tracks1 := m.tracks.map (fun t =>
              { t with clips := t.clips.map (fun c => if c.id = clipId then clip2 else c) })
            let tracks2 :=
              if newTimelineRange.isSome then
                modifyTrack tracks1 clip.trackId (fun t =>
                  { t with clips := List.insertionSort clipLE t.clips })
              else tracks1
            let (cmdId, m1) := freshId { m with tracks := tracks2 }
            let m2 := executeCommand m1
              { id := cmdId, ctype := .trimClip
                data := .trimClipData clipId newSourceRange newTimelineRange
                undoData := .trimClipUndo clipId oldSourceRange oldTimelineRange }
            (updateTimeline m2, .ok true)

/-- `TimelineManager.splitClip`: `null` for an unknown clip or track;
throw `InvalidSplitPoint` unless `isWithinRange(splitPoint,
clip.timelineRange)` (start inclusive, end exclusive); else replace the
clip in place (`splice(clipIndex, 1, first, second)`) by two clips
partitioning its timeline range at the split point and its source range
at the offset `subtract(splitPoint, start)`, the `in` transition kept
only on the first and the `out` only on the second; record, recompute
the duration. -/
def splitClip (m : Manager) (clipId : Nat) (splitPoint : Timestamp) :
    Manager × Except RiverError (Option (Clip × Clip)) :=
  match getClip m clipId with
  | none => (m, .ok none)
  | some clip =>
      match getTrack m clip.trackId with
      | none => (m, .ok none)
      | some track =>
          if !(isWithinRange splitPoint clip.timelineRange) then
            (m, .error .invalidSplitPoint)
          else
            let firstDuration := subtract splitPoint clip.timelineRange.start
            let (id1, m1) := freshId m
            let (id2, m2) := freshId m1
            let firstClip : Clip :=
              { clip with
                  id := id1
                  timelineRange := { start := clip.timelineRange.start, stop := splitPoint }
                  sourceRange :=
                    { start := clip.sourceRange.start
                      stop := add clip.sourceRange.start firstDuration }
                  transitions :=
                    some { tIn := clip.transitions.bind (fun t => t.tIn), tOut := none } }
            let secondClip : Clip :=
              { clip with
                  id := id2
                  timelineRange := { start := splitPoint, stop := clip.timelineRange.stop }
                  sourceRange :=
                    { start := add clip.sourceRange.start firstDuration
                      stop := clip.sourceRange.stop }
                  transitions :=
                    some { tIn := none, tOut := clip.transitions.bind (fun t => t.tOut) } }
            let clipIndex : Int :=
              match track.clips.findIdx? (fun c => c.id = clipId) with
              | some i => (i : Int)
              | none => -1
            let tracks1 := modifyTrack m2.tracks clip.trackId (fun t =>
              { t with clips := jsSplice t.clips clipIndex 1 [firstClip, secondClip] })
            let (cmdId, m3) := freshId { m2 with tracks := tracks1 }
            let m4 := executeCommand m3
              { id := cmdId, ctype := .splitClip
                data := .splitClipData clipId splitPoint id1 id2
                undoData := .splitClipUndo clip track.id clipIndex }
            (updateTimeline m4, .ok (some (firstClip, secondClip)))

end TimelineManager

/-! ## Claim theorems -/

/-- `true` when the call returned normally, `false` when it threw. -/
def exceptOk {ε α : Type} : Except ε α → Bool
  | .ok _ => true
  | .error _ => false

theorem exceptOk_error {ε α : Type} {e : ε} : exceptOk (α := α) (.error e) = false := rfl

theorem exceptOk_ok {ε α : Type} {a : α} : exceptOk (ε := ε) (.ok a) = true := rfl

/-- C6 (code bug): `create` is claimed to normalize for all integer
inputs, but the JS remainder truncates toward zero while the seconds
part uses `Math.floor`: `create(0, -1)` yields `{seconds: -1,
nanoseconds: -1}`, whose nanoseconds lie outside `[0, 1e9)` and which
differs from the claimed floor-division normal form
`create(s + ns div 1e9, ns mod 1e9) = {seconds: -1, nanoseconds:
999999999}`.  The concrete positive case of the claim,
`create(10, 1500000000) = {seconds: 11, nanoseconds: 500000000}`,
does hold. -/
theorem create_negative_nanoseconds_bug :
    TimestampUtils.create 0 (-1) = { seconds := -1, nanoseconds := -1 } ∧
    ¬ (0 ≤ (TimestampUtils.create 0 (-1)).nanoseconds ∧
        (TimestampUtils.create 0 (-1)).nanoseconds < 1000000000) ∧
    TimestampUtils.create 0 (-1) ≠
      TimestampUtils.create (0 + Int.fdiv (-1) 1000000000)
        (Int.fmod (-1) 1000000000) ∧
    TimestampUtils.create 10 1500000000 =
      { seconds := 11, nanoseconds := 500000000 } := by
  refine ⟨by decide, by decide, by decide, by decide⟩

/-- Instance for evaluating concrete `Except` results. -/
instance {ε α : Type} [DecidableEq ε] [DecidableEq α] : DecidableEq (Except ε α) := fun a b =>
  match a, b with
  | .ok x, .ok y =>
      if h : x = y then .isTrue (by rw [h]) else .isFalse (by intro hh; cases hh; exact h rfl)
  | .error x, .error y =>
      if h : x = y then .isTrue (by rw [h]) else .isFalse (by intro hh; cases hh; exact h rfl)
  | .ok _, .error _ => .isFalse (by intro hh; cases hh)
  | .error _, .ok _ => .isFalse (by intro hh; cases hh)

/-- `fromString` unfolded over the shape of the component list: only
the first two components are consulted. -/
theorem fromString_eq_cases (s : List Char) :
    TimestampUtils.fromString s =
      (match (splitOnChar ':' s).map jsNumber with
        | some n0 :: some n1 :: _ => .ok (TimestampUtils.create n0 n1)
        | _ => .error .invalidFormat) := by
  unfold TimestampUtils.fromString
  rcases (splitOnChar ':' s).map jsNumber with _ | ⟨_ | n0, _ | ⟨_ | n1, rest⟩⟩ <;> simp

/-- C7 (counterexample): a string with three colon-separated integer
components is NOT rejected — the destructuring
`[seconds, nanoseconds] = str.split(':').map(Number)` silently drops
the third component, so `"1:2:3"` parses as `create(1, 2)`. -/
theorem fromString_three_components_accepted :
    TimestampUtils.fromString ['1', ':', '2', ':', '3'] =
      .ok { seconds := 1, nanoseconds := 2 } := by
  rw [fromString_eq_cases]
  rfl

/-- C7 (amended): `fromString` succeeds iff the string splits on `:`
into at least two components whose first two parse as numbers
(`Number` of a missing second component is NaN); any components beyond
the second are ignored, and the result is `create` of the first two. -/
theorem fromString_uses_first_two_components (s : List Char) :
    (exceptOk (TimestampUtils.fromString s) = true ↔
      ∃ c0 c1 rest, splitOnChar ':' s = c0 :: c1 :: rest ∧
        (jsNumber c0).isSome = true ∧ (jsNumber c1).isSome = true) ∧
    (∀ c0 c1 rest n0 n1, splitOnChar ':' s = c0 :: c1 :: rest →
      jsNumber c0 = some n0 → jsNumber c1 = some n1 →
      TimestampUtils.fromString s = .ok (TimestampUtils.create n0 n1)) := by
  have key := fromString_eq_cases s
  rcases h : splitOnChar ':' s with _ | ⟨c0, _ | ⟨c1, rest⟩⟩
  · rw [h] at key
    simp only [List.map_nil] at key
    refine ⟨?_, ?_⟩
    · rw [key]
      simp [exceptOk]
    · intro a b r n0 n1 hab ha hb
      exact absurd hab (by simp)
  · rw [h] at key
    simp only [List.map_cons, List.map_nil] at key
    rcases hc0 : jsNumber c0 with _ | n0 <;> rw [hc0] at key <;> simp at key <;>
      refine ⟨?_, ?_⟩
    · rw [key]
      simp [exceptOk]
    · intro a b r n0 n1 hab ha hb
      exact absurd hab (by simp)
    · rw [key]
      simp [exceptOk]
    · intro a b r n0' n1' hab ha hb
      exact absurd hab (by simp)
  · rw [h] at key
    simp only [List.map_cons] at key
    rcases hc0 : jsNumber c0 with _ | n0 <;> rcases hc1 : jsNumber c1 with _ | n1 <;>
      rw [hc0, hc1] at key <;> simp at key <;> refine ⟨?_, ?_⟩
    · rw [key]
      simp [exceptOk, hc0]
    · intro a b r n0' n1' hab ha hb
      rw [List.cons.injEq, List.cons.injEq] at hab
      rw [← hab.1, hc0] at ha
      cases ha
    · rw [key]
      simp [exceptOk, hc0]
    · intro a b r n0' n1' hab ha hb
      rw [List.cons.injEq, List.cons.injEq] at hab
      rw [← hab.1, hc0] at ha
      cases ha
    · rw [key]
      simp [exceptOk, hc1]
    · intro a b r n0' n1' hab ha hb
      rw [List.cons.injEq, List.cons.injEq] at hab
      rw [← hab.2.1, hc1] at hb
      cases hb
    · rw [key]
      simp only [exceptOk_ok, true_iff]
      refine ⟨c0, c1, rest, rfl, ?_, ?_⟩
      · rw [hc0]; rfl
      · rw [hc1]; rfl
    · intro a b r n0' n1' hab ha hb
      rw [List.cons.injEq, List.cons.injEq] at hab
      rw [← hab.1, hc0] at ha
      rw [← hab.2.1, hc1] at hb
      cases ha
      cases hb
      exact key

/-- C7 (witness for the amended theorem): `"10:5:99"` is accepted and
parsed from its first two components. -/
theorem fromString_uses_first_two_components_witness :
    TimestampUtils.fromString ['1', '0', ':', '5', ':', '9', '9'] =
      .ok (TimestampUtils.create 10 5) :=
  (fromString_uses_first_two_components _).2 ['1', '0'] ['5'] [['9', '9']] 10 5
    (by decide) (by decide) (by decide)

/-- C10: `extractRange` and `clone` never touch the receiving Flow:
every field assignment in their bodies targets the newly built flow, so
the receiver's post-state (first component) is the input flow itself,
id, generation, `updated` stamp and segment list included. -/
theorem extractRange_clone_leave_receiver_unchanged :
    (∀ (f : RiverFlow) (range : TimeRange) (newId : Option Nat) (fresh now : Nat),
      (FlowModel.extractRange f range newId fresh now).1 = f) ∧
    (∀ (f : RiverFlow) (newId : Option Nat) (fresh now : Nat),
      (FlowModel.clone f newId fresh now).1 = f) :=
  ⟨fun _ _ _ _ _ => rfl, fun _ _ _ _ => rfl⟩

/-! Concrete fixtures mirroring the test suite: one video track, clips
given by second-aligned ranges. -/

/-- The track spec the suite's `beforeEach` adds. -/
def vTrackSpec : TrackSpec :=
  { name := "Video", ttype := 0, index := 0
    muted := false, locked := false, visible := true }

/-- A manager holding one empty video track (track id 0). -/
def tl1 : Manager := (TimelineManager.addTrack TimelineManager.init vTrackSpec).1

/-- A clip spec with second-aligned timeline range `[ts, te)` and
source range `[ss, se)`. -/
def clipSpec (ts te ss se : Int) : ClipSpec :=
  { sourceId := 0, flowId := 0
    timelineRange := { start := { seconds := ts, nanoseconds := 0 }
                       stop := { seconds := te, nanoseconds := 0 } }
    sourceRange := { start := { seconds := ss, nanoseconds := 0 }
                     stop := { seconds := se, nanoseconds := 0 } }
    speed := 1, transitions := none, effects := [] }

/-- One track, one clip `{timelineRange: [0s,10s), sourceRange:
[5s,15s)}` with clip id 2. -/
def exManager : Manager := (TimelineManager.addClip tl1 0 (clipSpec 0 10 5 15)).1

/-- The clip stored in `exManager`. -/
def clipEx : Clip :=
  { id := 2, sourceId := 0, flowId := 0, trackId := 0
    timelineRange := { start := { seconds := 0, nanoseconds := 0 }
                       stop := { seconds := 10, nanoseconds := 0 } }
    sourceRange := { start := { seconds := 5, nanoseconds := 0 }
                     stop := { seconds := 15, nanoseconds := 0 } }
    speed := 1, transitions := none, effects := [] }

/-- Adding `[0s,5s)` to the empty track (clip id 2). -/
def addResA : Manager × Except RiverError (Option Clip) :=
  TimelineManager.addClip tl1 0 (clipSpec 0 5 0 5)

/-- Then adding `[5s,10s)` after it (clip id 4). -/
def addResB : Manager × Except RiverError (Option Clip) :=
  TimelineManager.addClip addResA.1 0 (clipSpec 5 10 0 5)

/-- The manager after both successful adds. -/
def mC2 : Manager := addResB.1

/-- C1 (code bug): `applyUndo` is an unimplemented stub that only logs,
so `undo()` reports success and moves the cursor but reverts nothing:
after `addTrack` on a fresh manager, `undo()` returns `true` yet the
track is still there (the pre-`addTrack` state had no tracks).  In
general `undo` leaves tracks, markers and history untouched for every
manager state. -/
theorem undo_reverts_nothing :
    ((TimelineManager.undo tl1).2 = true ∧
      (TimelineManager.undo tl1).1.tracks = tl1.tracks ∧
      tl1.tracks.length = 1 ∧
      TimelineManager.init.tracks = []) ∧
    (∀ m : Manager,
      (TimelineManager.undo m).1.tracks = m.tracks ∧
      (TimelineManager.undo m).1.markers = m.markers ∧
      (TimelineManager.undo m).1.history = m.history) := by
  refine ⟨by decide, fun m => ?_⟩
  unfold TimelineManager.undo
  split
  · exact ⟨rfl, rfl, rfl⟩
  · exact ⟨rfl, rfl, rfl⟩

/-- C2 (code bug): both adds succeed, but `findClipInsertIndex` returns
-1 when the new clip starts after every existing clip, and
`splice(-1, 0, clip)` inserts before the LAST element, so adding
`[0s,5s)` then `[5s,10s)` leaves the track's clips in the order
`[5s.., 0s..]` — not sorted ascending by `timelineRange.start`. -/
theorem addClip_append_breaks_sort_order :
    exceptOk addResA.2 = true ∧
    exceptOk addResB.2 = true ∧
    (TimelineManager.getTrack mC2 0).map (fun t =>
        t.clips.map (fun c => c.timelineRange.start)) =
      some [{ seconds := 5, nanoseconds := 0 }, { seconds := 0, nanoseconds := 0 }] ∧
    ¬ ∀ t ∈ mC2.tracks, List.Sorted TimelineManager.clipLE t.clips := by
  refine ⟨by decide, by decide, by decide, by decide⟩

/-- C3 (counterexample): splitting exactly at the clip's start is NOT
rejected — `isWithinRange` is start-inclusive, so `splitClip(clip, 0s)`
on the clip `[0s,10s)` returns normally and mutates the timeline,
where the claim requires an `InvalidSplitPoint` failure with no
change. -/
theorem splitClip_at_start_not_rejected :
    exceptOk (TimelineManager.splitClip exManager 2
        { seconds := 0, nanoseconds := 0 }).2 = true ∧
    (TimelineManager.splitClip exManager 2
        { seconds := 0, nanoseconds := 0 }).1 ≠ exManager := by
  refine ⟨by decide, by decide⟩

/-- C3 (amended): `splitClip` fails with `InvalidSplitPoint` exactly
when the split point lies outside the clip's HALF-OPEN timeline range
(`splitPoint < start` or `splitPoint ≥ end`): splitting at the end is
rejected and leaves the state unchanged, but splitting at the start is
accepted. -/
theorem splitClip_validation_is_half_open (m : Manager) (clipId : Nat)
    (splitPoint : Timestamp) (clip : Clip)
    (hclip : TimelineManager.getClip m clipId = some clip)
    (htrack : (TimelineManager.getTrack m clip.trackId).isSome = true) :
    ((TimelineManager.splitClip m clipId splitPoint).2 =
        .error .invalidSplitPoint ↔
      TimestampUtils.isWithinRange splitPoint clip.timelineRange = false) ∧
    (TimestampUtils.isWithinRange splitPoint clip.timelineRange = false →
      (TimelineManager.splitClip m clipId splitPoint).1 = m) := by
  obtain ⟨track, htk⟩ := Option.isSome_iff_exists.mp htrack
  simp only [TimelineManager.splitClip, hclip, htk]
  cases hw : TimestampUtils.isWithinRange splitPoint clip.timelineRange
  · simp
  · simp

/-- C3 (witness): on the clip `[0s,10s)` the call at the exclusive end
`10s` throws `InvalidSplitPoint` and leaves the manager unchanged. -/
theorem splitClip_validation_is_half_open_witness :
    (TimelineManager.splitClip exManager 2
        { seconds := 10, nanoseconds := 0 }).2 = .error .invalidSplitPoint ∧
    (TimelineManager.splitClip exManager 2
        { seconds := 10, nanoseconds := 0 }).1 = exManager := by
  have h := splitClip_validation_is_half_open exManager 2
    { seconds := 10, nanoseconds := 0 } clipEx (by decide) (by decide)
  exact ⟨h.1.mpr (by decide), h.2 (by decide)⟩

/-- C5: for a clip found on a consistent track and a strictly interior
split point, the two returned clips' timeline ranges partition the
original at the split point and their source ranges partition the
original source range at the offset `subtract(splitPoint, start)`. -/
theorem splitClip_partitions_ranges (m : Manager) (clipId : Nat)
    (splitPoint : Timestamp) (clip : Clip)
    (hclip : TimelineManager.getClip m clipId = some clip)
    (htrack : (TimelineManager.getTrack m clip.trackId).isSome = true)
    (h1 : TimestampUtils.compare clip.timelineRange.start splitPoint = -1)
    (h2 : TimestampUtils.compare splitPoint clip.timelineRange.stop = -1) :
    ((TimelineManager.splitClip m clipId splitPoint).2.map (Option.map (fun p =>
        (p.1.timelineRange, p.1.sourceRange, p.2.timelineRange, p.2.sourceRange)))) =
      .ok (some
        ({ start := clip.timelineRange.start, stop := splitPoint },
         { start := clip.sourceRange.start
           stop := TimestampUtils.add clip.sourceRange.start
             (TimestampUtils.subtract splitPoint clip.timelineRange.start) },
         { start := splitPoint, stop := clip.timelineRange.stop },
         { start := TimestampUtils.add clip.sourceRange.start
             (TimestampUtils.subtract splitPoint clip.timelineRange.start)
           stop := clip.sourceRange.stop })) := by
  obtain ⟨track, htk⟩ := Option.isSome_iff_exists.mp htrack
  have hw : TimestampUtils.isWithinRange splitPoint clip.timelineRange = true := by
    unfold TimestampUtils.isWithinRange
    have hs := TimestampUtils.compare_swap splitPoint clip.timelineRange.start
    rw [h1] at hs
    simp [hs, h2]
  simp only [TimelineManager.splitClip, hclip, htk, hw]
  rfl

/-- C5 (witness, the claim's concrete example): the clip
`{timelineRange: [0s,10s), sourceRange: [5s,15s)}` split at `4s` yields
`first = {timelineRange: [0,4), sourceRange: [5,9)}` and
`second = {timelineRange: [4,10), sourceRange: [9,15)}`. -/
theorem splitClip_partitions_ranges_witness :
    ((TimelineManager.splitClip exManager 2
        { seconds := 4, nanoseconds := 0 }).2.map (Option.map (fun p =>
        (p.1.timelineRange, p.1.sourceRange, p.2.timelineRange, p.2.sourceRange)))) =
      .ok (some
        ({ start := { seconds := 0, nanoseconds := 0 }
           stop := { seconds := 4, nanoseconds := 0 } },
         { start := { seconds := 5, nanoseconds := 0 }
           stop := { seconds := 9, nanoseconds := 0 } },
         { start := { seconds := 4, nanoseconds := 0 }
           stop := { seconds := 10, nanoseconds := 0 } },
         { start := { seconds := 9, nanoseconds := 0 }
           stop := { seconds := 15, nanoseconds := 0 } })) := by
  have h := splitClip_partitions_ranges exManager 2
    { seconds := 4, nanoseconds := 0 } clipEx (by decide) (by decide)
    (by decide) (by decide)
  exact h.trans (by decide)

/-! Flow fixtures. -/

/-- An empty flow, as the `FlowModel` constructor builds one with no
segment data. -/
def flow0 : RiverFlow :=
  { id := 0, sourceId := none, label := none, description := none
    format := 0, tags := [], created := 0, updated := 0
    generation := 0, segments := [] }

/-- A segment spec covering `[a, b)` seconds with id `i`. -/
def segSpec (a b : Int) (i : Nat) : SegSpec :=
  { id := i
    timerange := { start := { seconds := a, nanoseconds := 0 }
                   stop := { seconds := b, nanoseconds := 0 } }
    objectIds := [], tsOffset := none, sampleDuration := none
    mediaTimerange := none }

/-- `flow0` after a successful `addSegment([0s,10s))`. -/
def flowA : RiverFlow := (FlowModel.addSegment flow0 (segSpec 0 10 1) 0).1

/-- C8: every one of the five throwing mutators validates before
mutating: whenever the call throws (`OverlapError` from
`addSegment`/`addClip`/`moveClip`/`trimClip`, `InvalidSplitPoint` from
`splitClip`), the receiver's post-state equals its pre-state exactly —
segments, generation, tracks, clips, history and derived duration
included. -/
theorem mutators_validate_before_mutating :
    (∀ (f : RiverFlow) (spec : SegSpec) (now : Nat),
      exceptOk (FlowModel.addSegment f spec now).2 = false →
      (FlowModel.addSegment f spec now).1 = f) ∧
    (∀ (m : Manager) (trackId : Nat) (spec : ClipSpec),
      exceptOk (TimelineManager.addClip m trackId spec).2 = false →
      (TimelineManager.addClip m trackId spec).1 = m) ∧
    (∀ (m : Manager) (clipId newTrackId : Nat) (newStart : Timestamp),
      exceptOk (TimelineManager.moveClip m clipId newTrackId newStart).2 = false →
      (TimelineManager.moveClip m clipId newTrackId newStart).1 = m) ∧
    (∀ (m : Manager) (clipId : Nat) (nsr ntr : Option TimeRange),
      exceptOk (TimelineManager.trimClip m clipId nsr ntr).2 = false →
      (TimelineManager.trimClip m clipId nsr ntr).1 = m) ∧
    (∀ (m : Manager) (clipId : Nat) (sp : Timestamp),
      exceptOk (TimelineManager.splitClip m clipId sp).2 = false →
      (TimelineManager.splitClip m clipId sp).1 = m) := by
  refine ⟨?_, ?_, ?_, ?_, ?_⟩
  · intro f spec now h
    simp only [FlowModel.addSegment] at h ⊢
    split <;> simp_all [exceptOk]
  · intro m trackId spec h
    unfold TimelineManager.addClip at h ⊢
    cases hg : TimelineManager.getTrack m trackId <;> simp only [hg] at h ⊢
    all_goals try rfl
    all_goals split <;> simp_all [exceptOk]
  · intro m clipId newTrackId newStart h
    unfold TimelineManager.moveClip at h ⊢
    cases hc : TimelineManager.getClip m clipId <;> simp only [hc] at h ⊢
    all_goals try rfl
    rename_i clip
    cases hs : TimelineManager.getTrack m clip.trackId <;>
      cases ht : TimelineManager.getTrack m newTrackId <;>
        simp only [hs, ht] at h ⊢
    all_goals try rfl
    all_goals split <;> simp_all [exceptOk]
  · intro m clipId nsr ntr h
    unfold TimelineManager.trimClip at h ⊢
    cases hc : TimelineManager.getClip m clipId <;> simp only [hc] at h ⊢
    all_goals try rfl
    rename_i clip
    cases hs : TimelineManager.getTrack m clip.trackId <;> simp only [hs] at h ⊢
    all_goals try rfl
    all_goals split <;> simp_all [exceptOk]
  · intro m clipId sp h
    unfold TimelineManager.splitClip at h ⊢
    cases hc : TimelineManager.getClip m clipId <;> simp only [hc] at h ⊢
    all_goals try rfl
    rename_i clip
    cases hs : TimelineManager.getTrack m clip.trackId <;> simp only [hs] at h ⊢
    all_goals try rfl
    all_goals split <;> simp_all [exceptOk]

/-- C8 (witness): each of the five mutators, driven into its validation
failure on a concrete state, leaves that state untouched. -/
theorem mutators_validate_before_mutating_witness :
    (FlowModel.addSegment flowA (segSpec 5 15 2) 1).1 = flowA ∧
    (TimelineManager.addClip exManager 0 (clipSpec 5 12 0 7)).1 = exManager ∧
    (TimelineManager.moveClip mC2 2 0 { seconds := 6, nanoseconds := 0 }).1 = mC2 ∧
    (TimelineManager.trimClip mC2 2 none
        (some { start := { seconds := 4, nanoseconds := 0 }
                stop := { seconds := 12, nanoseconds := 0 } })).1 = mC2 ∧
    (TimelineManager.splitClip mC2 2 { seconds := 20, nanoseconds := 0 }).1 = mC2 :=
  ⟨mutators_validate_before_mutating.1 flowA (segSpec 5 15 2) 1 (by decide),
   mutators_validate_before_mutating.2.1 exManager 0 (clipSpec 5 12 0 7) (by decide),
   mutators_validate_before_mutating.2.2.1 mC2 2 0 _ (by decide),
   mutators_validate_before_mutating.2.2.2.1 mC2 2 none _ (by decide),
   mutators_validate_before_mutating.2.2.2.2 mC2 2 _ (by decide)⟩

/-! ## C4: the Flow ledger invariant -/

/-- Two segments do not overlap under the half-open test. -/
def segNoOverlap (a b : FlowSegment) : Prop :=
  FlowModel.rangesOverlap a.timerange b.timerange = false

instance : DecidableRel segNoOverlap := fun a b =>
  inferInstanceAs (Decidable (_ = false))

theorem rangesOverlap_symm (a b : TimeRange) :
    FlowModel.rangesOverlap a b = FlowModel.rangesOverlap b a := by
  unfold FlowModel.rangesOverlap
  rw [Bool.and_comm]
  have h1 := TimestampUtils.compare_swap a.stop b.start
  have h2 := TimestampUtils.compare_swap a.start b.stop
  congr 1
  · exact decide_eq_decide.mpr (by omega)
  · exact decide_eq_decide.mpr (by omega)

theorem segNoOverlap_symm : ∀ {x y : FlowSegment}, segNoOverlap x y → segNoOverlap y x := by
  intro x y h
  unfold segNoOverlap at h ⊢
  rw [rangesOverlap_symm]
  exact h

/-- Fold a list of `addSegment` calls (spec with its `now` stamp);
`none` when any call throws. -/
def addAll : RiverFlow → List (SegSpec × Nat) → Option RiverFlow
  | f, [] => some f
  | f, (spec, now) :: rest =>
      match FlowModel.addSegment f spec now with
      | (_, .error _) => none
      | (f', .ok _) => addAll f' rest

/-- A successful `addSegment` keeps the segments pairwise
non-overlapping (new segment validated against all) and leaves them
sorted (the list is re-sorted on every insert). -/
theorem addSegment_preserves_inv (f : RiverFlow) (spec : SegSpec) (now : Nat)
    (f' : RiverFlow) (r : FlowSegment)
    (h : FlowModel.addSegment f spec now = (f', .ok r))
    (hpw : f.segments.Pairwise segNoOverlap) :
    f'.segments.Pairwise segNoOverlap ∧ List.Sorted FlowModel.segLE f'.segments := by
  simp only [FlowModel.addSegment] at h
  split at h
  · simp at h
  · rename_i hv
    obtain ⟨hf, -⟩ := Prod.mk.injEq _ _ _ _ ▸ h
    set newSegment : FlowSegment :=
      { id := spec.id, flowId := f.id, timerange := spec.timerange
        objectIds := spec.objectIds, tsOffset := spec.tsOffset
        sampleDuration := spec.sampleDuration, mediaTimerange := spec.mediaTimerange
        created := now, updated := now } with hns
    have hseg : f'.segments = List.insertionSort FlowModel.segLE (f.segments ++ [newSegment]) := by
      rw [← hf]
    have hval : ∀ seg ∈ f.segments,
        FlowModel.rangesOverlap spec.timerange seg.timerange = false := by
      intro seg hmem
      by_contra hcon
      apply hv
      unfold FlowModel.validateFails
      rw [List.any_eq_true]
      exact ⟨seg, hmem, by simpa using Bool.not_eq_false _ |>.mp hcon⟩
    have hpw2 : (f.segments ++ [newSegment]).Pairwise segNoOverlap := by
      rw [List.pairwise_append]
      refine ⟨hpw, List.pairwise_singleton _ _, ?_⟩
      intro x hx y hy
      rw [List.mem_singleton] at hy
      subst hy
      exact segNoOverlap_symm (by
        unfold segNoOverlap
        exact hval x hx)
    constructor
    · rw [hseg]
      exact List.Pairwise.perm hpw2 (List.perm_insertionSort _ _).symm
        (fun h => segNoOverlap_symm h)
    · rw [hseg]
      exact List.sorted_insertionSort _ _

/-- C4: `addSegment` throws `OverlapError` exactly when the spec's
timerange overlaps some existing segment under the half-open test
`a.start < b.end && a.end > b.start`; and any run of successful
`addSegment` calls starting from a flow whose segments satisfy the
invariant (in particular a freshly constructed, segment-less flow)
leaves the segments pairwise non-overlapping and sorted ascending by
`timerange.start`. -/
theorem addSegment_overlap_iff_and_invariant :
    (∀ (f : RiverFlow) (spec : SegSpec) (now : Nat),
      exceptOk (FlowModel.addSegment f spec now).2 = false ↔
        ∃ seg ∈ f.segments,
          FlowModel.rangesOverlap spec.timerange seg.timerange = true) ∧
    (∀ (f f' : RiverFlow) (ops : List (SegSpec × Nat)),
      f.segments.Pairwise segNoOverlap →
      List.Sorted FlowModel.segLE f.segments →
      addAll f ops = some f' →
      f'.segments.Pairwise segNoOverlap ∧
        List.Sorted FlowModel.segLE f'.segments) := by
  constructor
  · intro f spec now
    simp only [FlowModel.addSegment]
    split
    · rename_i hv
      unfold FlowModel.validateFails at hv
      rw [List.any_eq_true] at hv
      exact iff_of_true rfl hv
    · rename_i hv
      refine iff_of_false (by simp [exceptOk]) ?_
      intro hcon
      apply hv
      unfold FlowModel.validateFails
      rw [List.any_eq_true]
      exact hcon
  · intro f f' ops
    induction ops generalizing f with
    | nil =>
        intro hpw hsort hadd
        cases hadd
        exact ⟨hpw, hsort⟩
    | cons op rest ih =>
        intro hpw hsort hadd
        obtain ⟨spec, now⟩ := op
        unfold addAll at hadd
        rcases hstep : FlowModel.addSegment f spec now with ⟨f1, res⟩
        rw [hstep] at hadd
        cases res with
        | error e => simp at hadd
        | ok r =>
            have hinv := addSegment_preserves_inv f spec now f1 r hstep hpw
            exact ih f1 hinv.1 hinv.2 hadd

/-- The segment stored in `flowA`. -/
def segA : FlowSegment :=
  { id := 1, flowId := 0
    timerange := { start := { seconds := 0, nanoseconds := 0 }
                   stop := { seconds := 10, nanoseconds := 0 } }
    objectIds := [], tsOffset := none, sampleDuration := none
    mediaTimerange := none, created := 0, updated := 0 }

/-- The two-insert run `[0s,10s)` then `[10s,15s)` of the witness. -/
def opsC4 : List (SegSpec × Nat) := [(segSpec 0 10 1, 0), (segSpec 10 15 2, 1)]

/-- C4 (witness): on a fresh flow, `addSegment([0s,10s))` then
`addSegment([10s,15s))` both succeed and leave the segments
non-overlapping and sorted, while `addSegment([5s,15s))` against the
first throws. -/
theorem addSegment_overlap_iff_and_invariant_witness :
    exceptOk (FlowModel.addSegment flowA (segSpec 5 15 3) 2).2 = false ∧
    ((addAll flow0 opsC4).getD flow0).segments.Pairwise segNoOverlap ∧
    List.Sorted FlowModel.segLE ((addAll flow0 opsC4).getD flow0).segments := by
  refine ⟨?_, ?_, ?_⟩
  · exact (addSegment_overlap_iff_and_invariant.1 flowA (segSpec 5 15 3) 2).mpr
      ⟨segA, by decide, by decide⟩
  · exact (addSegment_overlap_iff_and_invariant.2 flow0 ((addAll flow0 opsC4).getD flow0)
      opsC4 (by decide) (by decide) (by decide)).1
  · exact (addSegment_overlap_iff_and_invariant.2 flow0 ((addAll flow0 opsC4).getD flow0)
      opsC4 (by decide) (by decide) (by decide)).2

/-! ## C9: the bounded history -/

/-- The cursor invariant every reachable manager satisfies: the cursor
sits between -1 (nothing to undo) and the last history position. -/
def InvH (m : Manager) : Prop :=
  -1 ≤ m.historyIndex ∧ m.historyIndex + 1 ≤ (m.history.length : Int)

/-- One `executeCommand` step keeps the cursor invariant, caps the
history at `maxHistorySize`, and leaves `maxHistorySize` itself
unchanged. -/
theorem executeCommand_step (m : Manager) (c : EditCommand) (hInv : InvH m) :
    InvH (TimelineManager.executeCommand m c) ∧
    (TimelineManager.executeCommand m c).history.length ≤ m.maxHistorySize ∧
    (TimelineManager.executeCommand m c).maxHistorySize = m.maxHistorySize := by
  obtain ⟨h1, h2⟩ := hInv
  unfold InvH
  simp only [TimelineManager.executeCommand]
  split <;> rename_i hgt
  all_goals refine ⟨⟨?_, ?_⟩, ?_, ?_⟩
  all_goals dsimp only
  all_goals try rfl
  all_goals try simp only [List.length_drop, List.length_append, List.length_take,
    List.length_cons, List.length_nil] at hgt
  all_goals try simp only [List.length_drop, List.length_append, List.length_take,
    List.length_cons, List.length_nil]
  all_goals try push_cast at hgt
  all_goals try push_cast
  all_goals omega

/-- Folding any command list through `executeCommand` preserves the
cursor invariant and, as soon as one command was recorded, bounds the
history length by `maxHistorySize`. -/
theorem recordAll_inv : ∀ (cmds : List EditCommand) (m : Manager), InvH m →
    InvH (cmds.foldl TimelineManager.executeCommand m) ∧
    (cmds.foldl TimelineManager.executeCommand m).maxHistorySize = m.maxHistorySize ∧
    (cmds ≠ [] →
      (cmds.foldl TimelineManager.executeCommand m).history.length ≤ m.maxHistorySize)
  | [], _, h => ⟨h, rfl, fun hne => absurd rfl hne⟩
  | c :: rest, m, h => by
      have step := executeCommand_step m c h
      have ih := recordAll_inv rest (TimelineManager.executeCommand m c) step.1
      refine ⟨ih.1, ih.2.1.trans step.2.2, ?_⟩
      intro _
      cases rest with
      | nil => simpa using step.2.1
      | cons r rs =>
          have hb := ih.2.2 (by simp)
          rw [step.2.2] at hb
          simpa using hb

/-- C9: the default `maxHistorySize` is 100; after more than 100
recorded commands the history holds at most 100 and at most 100 undo
steps remain (`historyIndex + 1` bounds the number of times `undo` can
still fire); and every recording first discards the redo-able suffix
past the cursor — the new history is a suffix of
`history.slice(0, cursor+1) ++ [command]`. -/
theorem history_capped_and_redo_suffix_discarded :
    TimelineManager.init.maxHistorySize = 100 ∧
    (∀ cmds : List EditCommand, 100 < cmds.length →
      (cmds.foldl TimelineManager.executeCommand TimelineManager.init).history.length ≤ 100 ∧
      (cmds.foldl TimelineManager.executeCommand TimelineManager.init).historyIndex + 1 ≤ 100) ∧
    (∀ (m : Manager) (c : EditCommand),
      (TimelineManager.executeCommand m c).history <:+
        m.history.take (m.historyIndex + 1).toNat ++ [c]) := by
  refine ⟨rfl, ?_, ?_⟩
  · intro cmds hlen
    have hinv0 : InvH TimelineManager.init := by
      constructor <;> simp [TimelineManager.init]
    have h := recordAll_inv cmds TimelineManager.init hinv0
    have hne : cmds ≠ [] := by
      intro hnil
      rw [hnil] at hlen
      simp at hlen
    have hcap : (cmds.foldl TimelineManager.executeCommand TimelineManager.init).history.length ≤ 100 := by
      simpa [TimelineManager.init] using h.2.2 hne
    refine ⟨hcap, ?_⟩
    have hi := h.1.2
    have hcap' : ((cmds.foldl TimelineManager.executeCommand TimelineManager.init).history.length : Int) ≤ 100 := by
      exact_mod_cast hcap
    omega
  · intro m c
    simp only [TimelineManager.executeCommand]
    split
    · exact List.drop_suffix _ _
    · exact List.suffix_refl _

/-- A command value for driving the history bound on a concrete run. -/
def cmd0 : EditCommand :=
  { id := 0, ctype := .addMarker
    data := .addTrackUndo 0, undoData := .addTrackUndo 0 }

/-- C9 (witness): 101 recorded commands on a fresh manager leave at
most 100 history entries and at most 100 undo steps. -/
theorem history_capped_witness :
    ((List.replicate 101 cmd0).foldl TimelineManager.executeCommand
        TimelineManager.init).history.length ≤ 100 ∧
    ((List.replicate 101 cmd0).foldl TimelineManager.executeCommand
        TimelineManager.init).historyIndex + 1 ≤ 100 :=
  history_capped_and_redo_suffix_discarded.2.1 (List.replicate 101 cmd0) (by decide)
